import Mathlib

/-!
Verification of the `erroneous` structured-error library (`erroneous.go`).

The Go code is shallowly embedded as follows.

Data model.  A Go `error` interface value that is not nil is either a
`*Erroneous` pointer (possibly a typed nil pointer) or an error of some other
dynamic type, which this library only ever observes through its `Error()`
text.  So:

  * `GoError` models a NON-nil Go `error` interface value:
    `GoError.erroneous p` is a value of dynamic type `*Erroneous` with pointer
    `p` (`none` is the typed nil pointer), and `GoError.plain t` is an error of
    any other dynamic type whose `Error()` method returns `t`.
  * A nilable `error` slot (the `err` struct field, the argument of `Err`, the
    return value of an `ErrOpts`) is `Option GoError`, `none` being the nil
    interface.
  * `Erroneous` mirrors the struct: `msg`, `err`, `fields`, `file`, `line`,
    `depth`.  The Go map `ErrFields` (`map[string]interface` with unique keys)
    is an association list `List (String × FieldValue)` assumed duplicate-free,
    and its nilability is an outer `Option`.
  * `FieldValue` models an `interface` map value: a string, an int, an error
    value (`errVal`, the only values on which the `v.(error)` type assertion
    succeeds), or some other non-error value that `encoding/json` cannot
    marshal (`unsupported`).

`runtime.Caller` is an external collaborator of `New`; it is passed to `New`
as an explicit argument `capture : Int → Option (String × Int)` returning the
file and line on success and `none` when resolution fails (the `ok` flag).
-/

mutual

inductive Erroneous : Type where
  | mk (msg : String) (err : Option GoError) (fields : Option (List (String × FieldValue)))
       (file : String) (line : Int) (depth : Int) : Erroneous

inductive GoError : Type where
  | erroneous (p : Option Erroneous) : GoError
  | plain (text : String) : GoError

inductive FieldValue : Type where
  | str (s : String) : FieldValue
  | int (n : Int) : FieldValue
  | errVal (g : GoError) : FieldValue
  | unsupported : FieldValue

end

/-- ErrFields is a map from string to arbitrary value, modelled as a
duplicate-free association list. -/
abbrev ErrFields : Type := List (String × FieldValue)

/-- Projection for the `msg` struct field. -/
def Erroneous.msg : Erroneous → String
  | .mk m _ _ _ _ _ => m

/-- Projection for the `err` struct field (the cause). -/
def Erroneous.err : Erroneous → Option GoError
  | .mk _ c _ _ _ _ => c

/-- Projection for the `fields` struct field (`none` is the nil map). -/
def Erroneous.fields : Erroneous → Option ErrFields
  | .mk _ _ f _ _ _ => f

/-- Projection for the `file` struct field. -/
def Erroneous.file : Erroneous → String
  | .mk _ _ _ f _ _ => f

/-- Projection for the `line` struct field. -/
def Erroneous.line : Erroneous → Int
  | .mk _ _ _ _ l _ => l

/-- Projection for the `depth` struct field. -/
def Erroneous.depth : Erroneous → Int
  | .mk _ _ _ _ _ d => d

/-- Assignment `e.msg = m`. -/
def setMsg : Erroneous → String → Erroneous
  | .mk _ c f fl l d, m => .mk m c f fl l d

/-- Assignment `e.err = c`. -/
def setErr : Erroneous → Option GoError → Erroneous
  | .mk m _ f fl l d, c => .mk m c f fl l d

/-- Assignment `e.fields = f`. -/
def setFields : Erroneous → Option ErrFields → Erroneous
  | .mk m c _ fl l d, f => .mk m c f fl l d

/-- Assignment `e.file = fl`. -/
def setFile : Erroneous → String → Erroneous
  | .mk m c f _ l d, fl => .mk m c f fl l d

/-- Assignment `e.line = l`. -/
def setLine : Erroneous → Int → Erroneous
  | .mk m c f fl _ d, l => .mk m c f fl l d

/-- Assignment `e.depth = d`. -/
def setDepth : Erroneous → Int → Erroneous
  | .mk m c f fl l _, d => .mk m c f fl l d

/-- Go map lookup `fields[key]` (first match of the duplicate-free list). -/
def lookupField : ErrFields → String → Option FieldValue
  | [], _ => none
  | (k, v) :: rest, key => if k = key then some v else lookupField rest key

/-- Hexadecimal digit used by the JSON `\u00XX` escapes. -/
def hexDigit (n : Nat) : Char :=
  if n < 10 then Char.ofNat (48 + n) else Char.ofNat (87 + n)

/-- Encoding of one character of a JSON string, as `encoding/json` does it
with its default HTML escaping (`<`, `>`, `&` become `\u00XX`; quote and
backslash are backslash-escaped; control characters other than newline,
carriage return and tab become `\u00XX`). -/
def escapeChar (c : Char) : String :=
  if c = '"' then "\\\""
  else if c = '\\' then "\\\\"
  else if c = '\n' then "\\n"
  else if c = '\r' then "\\r"
  else if c = '\t' then "\\t"
  else if c = '<' then "\\u003c"
  else if c = '>' then "\\u003e"
  else if c = '&' then "\\u0026"
  else if c.toNat < 32 then "\\u00" ++ String.mk [hexDigit (c.toNat / 16), hexDigit (c.toNat % 16)]
  else String.mk [c]

/-- JSON encoding of a string, quotes included. -/
def quoteJson (s : String) : String :=
  "\"" ++ String.join (s.data.map escapeChar) ++ "\""

/-- JSON encoding of one map value.  A string and an int encode in the usual
way.  An error value encodes through its dynamic type; for the error types
this development works with (types whose fields are all unexported, such as
`*Erroneous` itself or `errors.errorString`) `encoding/json` emits the empty
object.  An `unsupported` value (func, chan, ...) makes `Marshal` fail, which
is `none`. -/
def marshalValue : FieldValue → Option String
  | .str s => some (quoteJson s)
  | .int n => some (toString n)
  | .errVal _ => some ("\x7b" ++ "\x7d")
  | .unsupported => none

/-- Byte-wise string order used by `encoding/json` to sort map keys (on valid
UTF-8 it agrees with code-point order). -/
def charListLe : List Char → List Char → Bool
  | [], _ => true
  | _ :: _, [] => false
  | a :: as, b :: bs => if a < b then true else if b < a then false else charListLe as bs

/-- Key order for map serialization. -/
def strLe (a b : String) : Bool :=
  charListLe a.data b.data

/-- Insertion step of the key sort. -/
def insertByKey (p : String × FieldValue) : ErrFields → ErrFields
  | [] => [p]
  | q :: rest => if strLe p.1 q.1 then p :: q :: rest else q :: insertByKey p rest

/-- Sorts map entries by key, as `encoding/json` does before emitting a map. -/
def sortByKey : ErrFields → ErrFields
  | [] => []
  | p :: rest => insertByKey p (sortByKey rest)

/-- JSON encoding of the entries of a (sorted) map, comma separated, any
value failure failing the whole encoding. -/
def marshalEntries : ErrFields → Option String
  | [] => some ""
  | (k, v) :: rest =>
    match marshalValue v, marshalEntries rest with
    | some vs, some restS =>
      some (quoteJson k ++ ":" ++ vs ++ (if restS = "" then "" else ",") ++ restS)
    | _, _ => none

/-- Model of `json.Marshal` on a non-nil `ErrFields` map: the JSON object
with the keys in sorted order, or `none` when marshalling fails.  In the
failure case `json.Marshal` returns nil data, so the caller sees empty
output. -/
def marshalFields (fs : ErrFields) : Option String :=
  match marshalEntries (sortByKey fs) with
  | some body => some ("\x7b" ++ body ++ "\x7d")
  | none => none

/-- Source-location segment of `Error`: lines 30-32 of `erroneous.go`,
`fmt.Sprintf(" [%s:%d]", e.file, e.line)` guarded by `e.file != ""`. -/
def sourceSeg (e : Erroneous) : String :=
  if e.file = "" then "" else " [" ++ e.file ++ ":" ++ toString e.line ++ "]"

/-- Fields segment of `Error`: lines 34-39 of `erroneous.go`.  When the map
is non-nil it is marshalled, errors discarded, and the data is appended after
two spaces when non-empty. -/
def fieldsSeg (e : Erroneous) : String :=
  match e.fields with
  | none => ""
  | some fs =>
    match marshalFields fs with
    | some data => if data.length > 0 then "  " ++ data else ""
    | none => ""

mutual

/-- Result of calling `.Error()` on a non-nil Go `error` interface value:
dispatch on the dynamic type. -/
def GoError.errorText : GoError → String
  | .erroneous p => Erroneous.Error p
  | .plain t => t

/-- Method `func (e *Erroneous) Error() string` (lines 23-42), on a possibly
nil receiver: the nil receiver returns `"unknown error"`; otherwise the
message, then the source segment, then the fields segment. -/
def Erroneous.Error : Option Erroneous → String
  | none => "unknown error"
  | some e => e.Message ++ sourceSeg e ++ fieldsSeg e

/-- Method `func (e *Erroneous) Message() string` (lines 45-55): the stored
message; when the cause is non-nil, `": "` is appended first when the message
is non-empty, then the cause's `Error()` text. -/
def Erroneous.Message : Erroneous → String
  | .mk msg err _ _ _ _ =>
    match err with
    | none => msg
    | some c => (if msg = "" then msg else msg ++ ": ") ++ c.errorText

end

/-- Method `func (e *Erroneous) Source() (string, int)` (lines 58-60). -/
def Erroneous.Source (e : Erroneous) : String × Int :=
  (e.file, e.line)

/-- Method `func (e *Erroneous) Fields() ErrFields` (lines 63-65). -/
def Erroneous.Fields (e : Erroneous) : Option ErrFields :=
  e.fields

/-- ErrOpts is `func(e *Erroneous) error`: it may update the builder and
returns an error, `none` being the nil return. -/
def ErrOpts : Type := Erroneous → Erroneous × Option GoError

/-- Type assertion `v.(error)` on an `interface` map value: succeeds exactly
on values whose dynamic type implements `error`. -/
def asError : FieldValue → Option GoError
  | .errVal g => some g
  | _ => none

/-- Option `Err` (lines 96-104): when the argument's dynamic type is
`*Erroneous` (a typed nil pointer included) the option returns the argument
itself, short-circuiting; otherwise the argument (nil included) is stored as
the cause and nil is returned. -/
def Err (err : Option GoError) : ErrOpts := fun e =>
  match err with
  | some (.erroneous p) => (e, some (.erroneous p))
  | _ => (setErr e err, none)

/-- Option `Msg` (lines 71-85): stores the message; when the fields map is
non-nil it is stored too and its `"error"` entry, when present and an error,
is handed to `Err`'s logic. -/
def Msg (msg : String) (fields : Option ErrFields) : ErrOpts := fun e =>
  let e1 := setMsg e msg
  match fields with
  | none => (e1, none)
  | some fs =>
    let e2 := setFields e1 (some fs)
    match lookupField fs "error" with
    | some v =>
      match asError v with
      | some g => Err (some g) e2
      | none => (e2, none)
    | none => (e2, none)

/-- Option `Fields` (lines 88-93): stores the fields map verbatim (nil
included) and returns nil. -/
def Fields (fields : Option ErrFields) : ErrOpts := fun e =>
  (setFields e fields, none)

/-- Option `Source` (lines 107-113): stores the file and line and returns
nil. -/
def Source (file : String) (line : Int) : ErrOpts := fun e =>
  (setLine (setFile e file) line, none)

/-- Option `Depth` (lines 116-121): stores the capture depth and returns
nil. -/
def Depth (depth : Int) : ErrOpts := fun e =>
  (setDepth e depth, none)

/-- Loop of `New` (lines 128-133): applies the options in order, stopping at
the first non-nil result. -/
def applyOpts : List ErrOpts → Erroneous → Erroneous × Option GoError
  | [], e => (e, none)
  | fn :: rest, e =>
    match fn e with
    | (e1, none) => applyOpts rest e1
    | (e1, some r) => (e1, some r)

/-- Builder `New` starts from (line 125-127): zero values with `depth: 2`. -/
def initRec : Erroneous :=
  .mk "" none none "" 0 2

/-- Capture step of `New` (lines 135-142): when the file is still empty,
`runtime.Caller(e.depth)` is consulted and, on success, its file and line are
stored; on failure nothing changes. -/
def finalize (capture : Int → Option (String × Int)) (e : Erroneous) : Erroneous :=
  if e.file = "" then
    match capture e.depth with
    | some (f, l) => setLine (setFile e f) l
    | none => e
  else e

/-- Constructor `New` (lines 124-145), with `runtime.Caller` passed in as the
`capture` collaborator: applies the options in order, returns the first
non-nil option result as is, and otherwise returns the built record after the
capture step. -/
def New (capture : Int → Option (String × Int)) (opts : List ErrOpts) : GoError :=
  match applyOpts opts initRec with
  | (_, some r) => r
  | (e, none) => .erroneous (some (finalize capture e))


/-- Computation rule for `Erroneous.msg`. -/
theorem msg_mk (m : String) (c : Option GoError) (f : Option ErrFields) (fl : String) (l d : Int) :
    (Erroneous.mk m c f fl l d).msg = m := rfl

/-- Computation rule for `Erroneous.err`. -/
theorem err_mk (m : String) (c : Option GoError) (f : Option ErrFields) (fl : String) (l d : Int) :
    (Erroneous.mk m c f fl l d).err = c := rfl

/-- Computation rule for `Erroneous.fields`. -/
theorem fields_mk (m : String) (c : Option GoError) (f : Option ErrFields) (fl : String) (l d : Int) :
    (Erroneous.mk m c f fl l d).fields = f := rfl

/-- Computation rule for `Erroneous.file`. -/
theorem file_mk (m : String) (c : Option GoError) (f : Option ErrFields) (fl : String) (l d : Int) :
    (Erroneous.mk m c f fl l d).file = fl := rfl

/-- Computation rule for `Erroneous.line`. -/
theorem line_mk (m : String) (c : Option GoError) (f : Option ErrFields) (fl : String) (l d : Int) :
    (Erroneous.mk m c f fl l d).line = l := rfl

/-- Computation rule for `Erroneous.depth`. -/
theorem depth_mk (m : String) (c : Option GoError) (f : Option ErrFields) (fl : String) (l d : Int) :
    (Erroneous.mk m c f fl l d).depth = d := rfl

/-- Splitting `applyOpts` at a concatenation: the tail runs only when the
front does not short-circuit. -/
theorem applyOpts_append (l1 l2 : List ErrOpts) (e : Erroneous) :
    applyOpts (l1 ++ l2) e =
      match applyOpts l1 e with
      | (e1, none) => applyOpts l2 e1
      | (e1, some r) => (e1, some r) := by
  induction l1 generalizing e with
  | nil => rfl
  | cons fn rest ih =>
    show applyOpts (fn :: (rest ++ l2)) e = _
    rw [applyOpts, applyOpts]
    cases hfn : fn e with
    | mk e1 r =>
      cases r with
      | none => exact ih e1
      | some rr => rfl

/-- The capture step never changes the message. -/
theorem finalize_msg (capture : Int → Option (String × Int)) (e : Erroneous) :
    (finalize capture e).msg = e.msg := by
  cases e with
  | mk m c f fl l d =>
    unfold finalize
    split
    · cases capture (Erroneous.mk m c f fl l d).depth with
      | none => rfl
      | some pr => cases pr; rfl
    · rfl

/-- The capture step never changes the cause. -/
theorem finalize_err (capture : Int → Option (String × Int)) (e : Erroneous) :
    (finalize capture e).err = e.err := by
  cases e with
  | mk m c f fl l d =>
    unfold finalize
    split
    · cases capture (Erroneous.mk m c f fl l d).depth with
      | none => rfl
      | some pr => cases pr; rfl
    · rfl

/-- The capture step never changes the fields. -/
theorem finalize_fields (capture : Int → Option (String × Int)) (e : Erroneous) :
    (finalize capture e).fields = e.fields := by
  cases e with
  | mk m c f fl l d =>
    unfold finalize
    split
    · cases capture (Erroneous.mk m c f fl l d).depth with
      | none => rfl
      | some pr => cases pr; rfl
    · rfl

/-- The capture step only rewrites the file and line slots. -/
theorem finalize_mk (capture : Int → Option (String × Int)) (m : String) (c : Option GoError)
    (f : Option ErrFields) (fl : String) (l d : Int) :
    ∃ fl2 l2, finalize capture (.mk m c f fl l d) = .mk m c f fl2 l2 d := by
  unfold finalize
  split
  · cases capture (Erroneous.mk m c f fl l d).depth with
    | none => exact ⟨fl, l, rfl⟩
    | some pr => cases pr with | mk f2 l2 => exact ⟨f2, l2, rfl⟩
  · exact ⟨fl, l, rfl⟩

/-- C9: calling `Error()` on a nil `*Erroneous` receiver returns exactly the
fixed literal "unknown error"; the nil branch is total, so the renderer never
faults on a nil receiver. -/
theorem c9_nil_receiver_error : Erroneous.Error none = "unknown error" := rfl

/-- C10: `New (Err v)` with `v` a typed nil `*Erroneous` short-circuits on
the dynamic type alone and returns that same typed nil value, whatever the
capture collaborator; the returned (non-nil) interface value renders
"unknown error". -/
theorem c10_typed_nil_short_circuit (capture : Int → Option (String × Int)) :
    New capture [Err (some (.erroneous none))] = .erroneous none
  ∧ GoError.errorText (.erroneous none) = "unknown error" :=
  ⟨rfl, rfl⟩

/-- C3: `Message()` is the stored message when the cause is nil; with a
non-nil cause it is the message, the separator ": " and the cause text when
the message is non-empty, and exactly the cause text when the message is
empty. -/
theorem c3_message_contract (m : String) (c : GoError) (f : Option ErrFields)
    (fl : String) (l d : Int) :
    Erroneous.Message (.mk m none f fl l d) = m
  ∧ (m ≠ "" → Erroneous.Message (.mk m (some c) f fl l d) = m ++ ": " ++ c.errorText)
  ∧ (m = "" → Erroneous.Message (.mk m (some c) f fl l d) = c.errorText) := by
  refine ⟨rfl, fun hm => ?_, fun hm => ?_⟩
  · simp [Erroneous.Message, hm]
  · subst hm
    simp [Erroneous.Message, String.empty_append]

/-- Witness for C3 at concrete inputs: a non-empty and an empty base message
in front of a plain cause. -/
theorem c3_message_contract_witness :
    Erroneous.Message (.mk "boom" (some (.plain "cause")) none "" 0 2) = "boom" ++ ": " ++ "cause"
  ∧ Erroneous.Message (.mk "" (some (.plain "cause")) none "" 0 2) = "cause" :=
  ⟨(c3_message_contract "boom" (.plain "cause") none "" 0 2).2.1 (by decide),
   (c3_message_contract "" (.plain "cause") none "" 0 2).2.2 rfl⟩

/-- C2 counterexample: a record with a present-but-empty fields map renders
differently from the otherwise-equal record with absent fields — the empty
map serializes to the two-byte empty JSON object, which line 36 of
`erroneous.go` finds non-empty and appends. -/
theorem c2_empty_vs_nil_fields_differ :
    Erroneous.Error (some (.mk "m" none (some []) "" 0 2))
      ≠ Erroneous.Error (some (.mk "m" none none "" 0 2)) := by decide

/-- C2 amended: an otherwise-equal record with present-but-empty fields
renders as the absent-fields output with two spaces and the empty JSON object
appended, so the absent-vs-empty distinction IS observable through `Error()`,
as well as through the `Fields()` accessor. -/
theorem c2_empty_fields_render (m : String) (c : Option GoError) (fl : String) (l d : Int) :
    Erroneous.Error (some (.mk m c (some []) fl l d))
      = Erroneous.Error (some (.mk m c none fl l d)) ++ "  " ++ "\x7b\x7d"
  ∧ Erroneous.Fields (.mk m c (some []) fl l d) ≠ Erroneous.Fields (.mk m c none fl l d) := by
  constructor
  · have hM : Erroneous.Message (.mk m c (some []) fl l d)
        = Erroneous.Message (.mk m c none fl l d) := by cases c <;> rfl
    have hs : sourceSeg (.mk m c (some []) fl l d) = sourceSeg (.mk m c none fl l d) := rfl
    have hfs : fieldsSeg (.mk m c (some []) fl l d) = "  " ++ ("\x7b" ++ "\x7d") := rfl
    have hfs0 : fieldsSeg (.mk m c none fl l d) = "" := rfl
    simp only [Erroneous.Error, hM, hs, hfs, hfs0, String.append_empty, String.append_assoc]
    rfl
  · simp [Erroneous.Fields, fields_mk]

/-- C4: `Error()` on a non-nil record is the message, then the bracketed
" [file:line]" segment exactly when the stored file is non-empty, then two
spaces and the serialized fields exactly when the map is non-nil and
serializes to non-empty text, in that order; the concrete record built by
`New` from `Msg "boom"`, `Source "f.go" 10` and `Fields [("k", "v")]` has a
`Message()` with no bracket or fields text while its `Error()` appends
" [f.go:10]" and two spaces and the serialization of the map. -/
theorem c4_error_contract (e : Erroneous) :
    Erroneous.Error (some e) =
      e.Message
      ++ (if e.file = "" then "" else " [" ++ e.file ++ ":" ++ toString e.line ++ "]")
      ++ (match e.fields with
          | none => ""
          | some fs =>
            match marshalFields fs with
            | some data => if data.length > 0 then "  " ++ data else ""
            | none => "")
  ∧ New (fun _ => none) [Msg "boom" none, Source "f.go" 10, Fields (some [("k", .str "v")])]
      = .erroneous (some (.mk "boom" none (some [("k", .str "v")]) "f.go" 10 2))
  ∧ Erroneous.Message (.mk "boom" none (some [("k", .str "v")]) "f.go" 10 2) = "boom"
  ∧ Erroneous.Error (some (.mk "boom" none (some [("k", .str "v")]) "f.go" 10 2))
      = "boom" ++ " [f.go:10]" ++ "  " ++ "\x7b\"k\":\"v\"\x7d" := by
  refine ⟨?_, rfl, rfl, by decide⟩
  simp only [Erroneous.Error, sourceSeg, fieldsSeg]

/-- Message stored at the top of an own-kind error value; it tells two
distinct records apart. -/
def topMsg : GoError → String
  | .erroneous (some e) => e.msg
  | _ => ""

/-- C1 counterexample: when a unit placed before `Err e1` itself
short-circuits (here an earlier `Err` of a different own-kind record), `New`
returns that earlier unit's value, not `e1` — so the claim's "regardless of
which units precede" fails. -/
theorem c1_err_identity_cex :
    New (fun _ => none)
      [Err (some (.erroneous (some (.mk "b" none none "" 0 2)))),
       Err (some (.erroneous (some (.mk "a" none none "" 0 2))))]
      ≠ .erroneous (some (.mk "a" none none "" 0 2)) :=
  fun h => absurd (congrArg topMsg h) (by decide)

/-- C1 amended: provided no unit placed before `Err e1` itself
short-circuits, `New` applied to any units around `Err e1`, with `e1` of the
library's own dynamic type `*Erroneous`, returns exactly `e1`, for every
capture collaborator and every list of later units — so no later unit is
applied and the capture step does not run. -/
theorem c1_err_identity (capture : Int → Option (String × Int)) (pre post : List ErrOpts)
    (p : Option Erroneous) (e1 : Erroneous)
    (hpre : applyOpts pre initRec = (e1, none)) :
    New capture (pre ++ Err (some (.erroneous p)) :: post) = .erroneous p := by
  unfold New
  rw [applyOpts_append, hpre]
  rfl

/-- Witness for C1 at concrete inputs: a `Msg` before and a `Msg` after the
`Err` unit; the later `Msg` does not affect the result. -/
theorem c1_err_identity_witness :
    New (fun _ => none)
      ([Msg "ctx" none] ++ Err (some (.erroneous (some (.mk "a" none none "" 0 2)))) :: [Msg "later" none])
      = .erroneous (some (.mk "a" none none "" 0 2)) :=
  c1_err_identity (fun _ => none) [Msg "ctx" none] [Msg "later" none]
    (some (.mk "a" none none "" 0 2)) (.mk "ctx" none none "" 0 2) rfl

/-- C5: `New (Msg m fields)` with a non-nil map holding a plain (non-library)
error under the "error" key behaves exactly as if `Err` of that value had
been applied right after the message and fields were stored; the built record
carries message `m`, fields `fields` and that value as its cause, and (for
non-empty `m`) its `Message()` is `m ++ ": " ++` the value's text. -/
theorem c5_msg_error_promotion (capture : Int → Option (String × Int)) (m t : String)
    (fs : ErrFields) (rest : List ErrOpts)
    (hlook : lookupField fs "error" = some (.errVal (.plain t))) (hm : m ≠ "") :
    New capture (Msg m (some fs) :: rest)
      = New capture (Msg m none :: Fields (some fs) :: Err (some (.plain t)) :: rest)
  ∧ New capture [Msg m (some fs)]
      = .erroneous (some (finalize capture (.mk m (some (.plain t)) (some fs) "" 0 2)))
  ∧ Erroneous.Message (.mk m (some (.plain t)) (some fs) "" 0 2) = m ++ ": " ++ t := by
  refine ⟨?_, ?_, ?_⟩
  · unfold New
    simp only [applyOpts, Msg, Fields, Err, hlook, asError]
  · unfold New
    simp only [applyOpts, Msg, Err, hlook, asError]
    rfl
  · simp [Erroneous.Message, GoError.errorText, hm]

/-- Witness for C5 at a concrete input: message "failed" with a plain error
"boom" under the "error" key. -/
theorem c5_msg_error_promotion_witness :
    New (fun _ => none) (Msg "failed" (some [("error", FieldValue.errVal (.plain "boom"))]) :: [])
      = New (fun _ => none)
          (Msg "failed" none :: Fields (some [("error", FieldValue.errVal (.plain "boom"))])
            :: Err (some (.plain "boom")) :: [])
  ∧ New (fun _ => none) [Msg "failed" (some [("error", FieldValue.errVal (.plain "boom"))])]
      = .erroneous (some (.mk "failed" (some (.plain "boom"))
          (some [("error", FieldValue.errVal (.plain "boom"))]) "" 0 2))
  ∧ Erroneous.Message (.mk "failed" (some (.plain "boom"))
        (some [("error", FieldValue.errVal (.plain "boom"))]) "" 0 2)
      = "failed" ++ ": " ++ "boom" := by
  have h := c5_msg_error_promotion (fun _ => none) "failed" "boom"
    [("error", FieldValue.errVal (.plain "boom"))] [] rfl (by decide)
  exact ⟨h.1, h.2.1, h.2.2⟩

/-- C6: the builder starts at capture depth 2; when no unit short-circuits
and the stored file is still empty after the units, the capture collaborator
is consulted at the current depth — on success the resolved file and line are
stored, on failure the record is returned unchanged (file still empty, no
error surfaced); when a unit stored a non-empty file the capture step does
not run. -/
theorem c6_capture_contract (capture : Int → Option (String × Int)) (opts : List ErrOpts)
    (e : Erroneous) (happ : applyOpts opts initRec = (e, none)) :
    initRec.depth = 2
  ∧ (e.file = "" → ∀ f l, capture e.depth = some (f, l) →
      New capture opts = .erroneous (some (setLine (setFile e f) l)))
  ∧ (e.file = "" → capture e.depth = none → New capture opts = .erroneous (some e))
  ∧ (e.file ≠ "" → New capture opts = .erroneous (some e)) := by
  refine ⟨rfl, ?_, ?_, ?_⟩
  · intro hf f l hcap
    unfold New
    rw [happ]
    simp only [finalize, hf, hcap, if_true]
  · intro hf hcap
    unfold New
    rw [happ]
    simp only [finalize, hf, hcap, if_true]
  · intro hf
    unfold New
    rw [happ]
    simp only [finalize, hf, if_false]

/-- Witness for C6 at concrete inputs: a successful capture at depth 5 set by
the `Depth` unit, a failing capture, and a `Source` unit suppressing
capture. -/
theorem c6_capture_contract_witness :
    New (fun d => if d = 5 then some ("w.go", 3) else none) [Depth 5]
      = .erroneous (some (.mk "" none none "w.go" 3 5))
  ∧ New (fun _ => none) [Depth 5] = .erroneous (some (.mk "" none none "" 0 5))
  ∧ New (fun _ => none) [Source "s.go" 7] = .erroneous (some (.mk "" none none "s.go" 7 2)) := by
  refine ⟨?_, ?_, ?_⟩
  · exact (c6_capture_contract (fun d => if d = 5 then some ("w.go", 3) else none) [Depth 5]
      (.mk "" none none "" 0 5) rfl).2.1 rfl "w.go" 3 (by decide)
  · exact (c6_capture_contract (fun _ => none) [Depth 5] (.mk "" none none "" 0 5) rfl).2.2.1 rfl rfl
  · exact (c6_capture_contract (fun _ => none) [Source "s.go" 7]
      (.mk "" none none "s.go" 7 2) rfl).2.2.2 (by decide)

/-- Assigning the message leaves the other slots alone. -/
theorem msg_setFields (e : Erroneous) (f : Option ErrFields) : (setFields e f).msg = e.msg := by
  cases e
  rfl

/-- Assigning the fields stores them verbatim. -/
theorem fields_setFields (e : Erroneous) (f : Option ErrFields) : (setFields e f).fields = f := by
  cases e
  rfl

/-- Short-circuit test for `Msg`'s "error"-entry inspection: true exactly
when the map holds an own-kind error value under the "error" key. -/
def msgShortCircuits (fs : ErrFields) : Bool :=
  match lookupField fs "error" with
  | some (.errVal (.erroneous _)) => true
  | _ => false

/-- Applying `Msg m fields` always leaves message `m` in the builder,
whatever it returns. -/
theorem msg_after_Msg (m : String) (fo : Option ErrFields) (e e1 : Erroneous)
    (r : Option GoError) (h : Msg m fo e = (e1, r)) : e1.msg = m := by
  cases e with
  | mk m0 c0 f0 fl0 l0 d0 =>
    cases fo with
    | none =>
      simp only [Msg, setMsg, Prod.mk.injEq] at h
      rw [← h.1]
      rfl
    | some fs =>
      cases hlook : lookupField fs "error" with
      | none =>
        simp only [Msg, setMsg, setFields, hlook, Prod.mk.injEq] at h
        rw [← h.1]
        rfl
      | some v =>
        cases v with
        | str s =>
          simp only [Msg, setMsg, setFields, hlook, asError, Prod.mk.injEq] at h
          rw [← h.1]
          rfl
        | int n =>
          simp only [Msg, setMsg, setFields, hlook, asError, Prod.mk.injEq] at h
          rw [← h.1]
          rfl
        | unsupported =>
          simp only [Msg, setMsg, setFields, hlook, asError, Prod.mk.injEq] at h
          rw [← h.1]
          rfl
        | errVal g =>
          cases g with
          | plain t =>
            simp only [Msg, setMsg, setFields, hlook, asError, Err, setErr, Prod.mk.injEq] at h
            rw [← h.1]
            rfl
          | erroneous p =>
            simp only [Msg, setMsg, setFields, hlook, asError, Err, Prod.mk.injEq] at h
            rw [← h.1]
            rfl

/-- When `Msg m fields` does not short-circuit, the map under "error" holds
no own-kind error value. -/
theorem msg_no_short_circuit (m : String) (fs : ErrFields) (e e1 : Erroneous)
    (h : Msg m (some fs) e = (e1, none)) : msgShortCircuits fs = false := by
  cases e with
  | mk m0 c0 f0 fl0 l0 d0 =>
    unfold msgShortCircuits
    cases hlook : lookupField fs "error" with
    | none => rfl
    | some v =>
      cases v with
      | str s => rfl
      | int n => rfl
      | unsupported => rfl
      | errVal g =>
        cases g with
        | plain t => rfl
        | erroneous p =>
          simp only [Msg, setMsg, setFields, hlook, asError, Err, Prod.mk.injEq] at h
          exact absurd h.2 (by simp)

/-- C7: in `New (Msg m f1) (Fields f2)` where the `Msg` unit does not
short-circuit (its map holds no own-kind "error" value — the hypothesis
`hc`), the later `Fields` unit wins the shared fields slot while the message
set by `Msg` is retained: the returned record has fields `f2` and message
`m`. -/
theorem c7_fields_after_msg (capture : Int → Option (String × Int)) (m : String)
    (f1 : ErrFields) (f2 : Option ErrFields) (e1 : Erroneous)
    (hc : Msg m (some f1) initRec = (e1, none)) :
    msgShortCircuits f1 = false
  ∧ New capture [Msg m (some f1), Fields f2]
      = .erroneous (some (finalize capture (setFields e1 f2)))
  ∧ (finalize capture (setFields e1 f2)).msg = m
  ∧ (finalize capture (setFields e1 f2)).fields = f2 := by
  refine ⟨msg_no_short_circuit m f1 initRec e1 hc, ?_, ?_, ?_⟩
  · unfold New
    rw [applyOpts, hc]
    rfl
  · rw [finalize_msg, msg_setFields, msg_after_Msg m (some f1) initRec e1 none hc]
  · rw [finalize_fields, fields_setFields]

/-- Witness for C7 at a concrete input: `Msg` stores one map, the later
`Fields` replaces it while the message stays. -/
theorem c7_fields_after_msg_witness :
    msgShortCircuits [("k", FieldValue.str "a")] = false
  ∧ New (fun _ => none)
      [Msg "m" (some [("k", FieldValue.str "a")]), Fields (some [("j", FieldValue.str "b")])]
      = .erroneous (some (.mk "m" none (some [("j", FieldValue.str "b")]) "" 0 2))
  ∧ Erroneous.msg (.mk "m" none (some [("j", FieldValue.str "b")]) "" 0 2) = "m"
  ∧ Erroneous.fields (.mk "m" none (some [("j", FieldValue.str "b")]) "" 0 2)
      = some [("j", FieldValue.str "b")] := by
  have h := c7_fields_after_msg (fun _ => none) "m" [("k", FieldValue.str "a")]
    (some [("j", FieldValue.str "b")]) (.mk "m" none (some [("k", FieldValue.str "a")]) "" 0 2) rfl
  exact ⟨h.1, h.2.1, h.2.2.1, h.2.2.2⟩

/-- Membership of the five standard configuration units, at any argument. -/
def IsStdUnit (u : ErrOpts) : Prop :=
  (∃ m f, u = Msg m f) ∨ (∃ f, u = Fields f) ∨ (∃ g, u = Err g) ∨
  (∃ f l, u = Source f l) ∨ (∃ n, u = Depth n)

/-- Test whether the record's cause is itself of the library's own dynamic
type `*Erroneous`. -/
def causeOwnKind (e : Erroneous) : Bool :=
  match e.err with
  | some (.erroneous _) => true
  | _ => false

/-- The `Err` unit never stores an own-kind value as the cause. -/
theorem err_unit_preserves (g : Option GoError) (e : Erroneous)
    (he : causeOwnKind e = false) : causeOwnKind (Err g e).1 = false := by
  cases e with
  | mk m0 c0 f0 fl0 l0 d0 =>
    cases g with
    | none => rfl
    | some gv =>
      cases gv with
      | erroneous p => exact he
      | plain t => rfl

/-- No standard unit ever stores an own-kind value as the cause. -/
theorem stdUnit_preserves (u : ErrOpts) (hu : IsStdUnit u) (e : Erroneous)
    (he : causeOwnKind e = false) : causeOwnKind (u e).1 = false := by
  have hset : ∀ (m : String) (c : Option GoError) (f : Option ErrFields) (fl : String)
      (l d : Int), causeOwnKind (.mk m c f fl l d) = causeOwnKind (.mk "" c none "" 0 0) := by
    intro m c f fl l d
    cases c with
    | none => rfl
    | some gv => cases gv <;> rfl
  rcases hu with ⟨m, fo, rfl⟩ | ⟨fo, rfl⟩ | ⟨g, rfl⟩ | ⟨f, l, rfl⟩ | ⟨n, rfl⟩
  · cases e with
    | mk m0 c0 f0 fl0 l0 d0 =>
      cases fo with
      | none => rw [show (Msg m none (.mk m0 c0 f0 fl0 l0 d0)).1 = .mk m c0 f0 fl0 l0 d0 from rfl]
                rw [hset m c0 f0 fl0 l0 d0, ← hset m0 c0 f0 fl0 l0 d0]
                exact he
      | some fs =>
        cases hlook : lookupField fs "error" with
        | none =>
          have : (Msg m (some fs) (.mk m0 c0 f0 fl0 l0 d0)).1 = .mk m c0 (some fs) fl0 l0 d0 := by
            simp only [Msg, setMsg, setFields, hlook]
          rw [this, hset m c0 (some fs) fl0 l0 d0, ← hset m0 c0 f0 fl0 l0 d0]
          exact he
        | some v =>
          cases v with
          | str s =>
            have : (Msg m (some fs) (.mk m0 c0 f0 fl0 l0 d0)).1 = .mk m c0 (some fs) fl0 l0 d0 := by
              simp only [Msg, setMsg, setFields, hlook, asError]
            rw [this, hset m c0 (some fs) fl0 l0 d0, ← hset m0 c0 f0 fl0 l0 d0]
            exact he
          | int n =>
            have : (Msg m (some fs) (.mk m0 c0 f0 fl0 l0 d0)).1 = .mk m c0 (some fs) fl0 l0 d0 := by
              simp only [Msg, setMsg, setFields, hlook, asError]
            rw [this, hset m c0 (some fs) fl0 l0 d0, ← hset m0 c0 f0 fl0 l0 d0]
            exact he
          | unsupported =>
            have : (Msg m (some fs) (.mk m0 c0 f0 fl0 l0 d0)).1 = .mk m c0 (some fs) fl0 l0 d0 := by
              simp only [Msg, setMsg, setFields, hlook, asError]
            rw [this, hset m c0 (some fs) fl0 l0 d0, ← hset m0 c0 f0 fl0 l0 d0]
            exact he
          | errVal g =>
            have hstep : Msg m (some fs) (.mk m0 c0 f0 fl0 l0 d0)
                = Err (some g) (.mk m c0 (some fs) fl0 l0 d0) := by
              simp only [Msg, setMsg, setFields, hlook, asError]
            rw [hstep]
            refine err_unit_preserves (some g) _ ?_
            rw [hset m c0 (some fs) fl0 l0 d0, ← hset m0 c0 f0 fl0 l0 d0]
            exact he
  · cases e with
    | mk m0 c0 f0 fl0 l0 d0 =>
      rw [show (Fields fo (.mk m0 c0 f0 fl0 l0 d0)).1 = .mk m0 c0 fo fl0 l0 d0 from rfl]
      rw [hset m0 c0 fo fl0 l0 d0, ← hset m0 c0 f0 fl0 l0 d0]
      exact he
  · exact err_unit_preserves g e he
  · cases e with
    | mk m0 c0 f0 fl0 l0 d0 =>
      rw [show (Source f l (.mk m0 c0 f0 fl0 l0 d0)).1 = .mk m0 c0 f0 f l d0 from rfl]
      rw [hset m0 c0 f0 f l d0, ← hset m0 c0 f0 fl0 l0 d0]
      exact he
  · cases e with
    | mk m0 c0 f0 fl0 l0 d0 =>
      rw [show (Depth n (.mk m0 c0 f0 fl0 l0 d0)).1 = .mk m0 c0 f0 fl0 l0 n from rfl]
      rw [hset m0 c0 f0 fl0 l0 n, ← hset m0 c0 f0 fl0 l0 d0]
      exact he

/-- Applying any list of standard units preserves the invariant that the
cause is not of the library's own kind. -/
theorem applyOpts_preserves (opts : List ErrOpts) (hstd : ∀ u ∈ opts, IsStdUnit u)
    (e : Erroneous) (he : causeOwnKind e = false) :
    causeOwnKind (applyOpts opts e).1 = false := by
  induction opts generalizing e with
  | nil => exact he
  | cons fn rest ih =>
    have h1 : causeOwnKind (fn e).1 = false :=
      stdUnit_preserves fn (hstd fn (by simp)) e he
    rw [applyOpts]
    cases hfn : fn e with
    | mk e1 r =>
      rw [hfn] at h1
      cases r with
      | none => exact ih (fun u hu => hstd u (by simp [hu])) e1 h1
      | some rr => exact h1

/-- C8: a record built by `New` from any non-short-circuiting sequence of the
five standard units never carries an own-kind record as its cause; and
wrapping an existing own-kind value (the `Err` short-circuit, which `Msg`'s
"error"-entry promotion reuses) never nests it but hands it back unchanged. -/
theorem c8_cause_never_own_kind (capture : Int → Option (String × Int)) (opts : List ErrOpts)
    (e : Erroneous) (hstd : ∀ u ∈ opts, IsStdUnit u)
    (happ : applyOpts opts initRec = (e, none)) :
    New capture opts = .erroneous (some (finalize capture e))
  ∧ causeOwnKind (finalize capture e) = false
  ∧ ∀ (p : Option Erroneous) (e0 : Erroneous),
      Err (some (.erroneous p)) e0 = (e0, some (.erroneous p)) := by
  refine ⟨?_, ?_, fun p e0 => rfl⟩
  · unfold New
    rw [happ]
  · have h1 := applyOpts_preserves opts hstd initRec rfl
    rw [happ] at h1
    have h2 : causeOwnKind (finalize capture e) = causeOwnKind e := by
      unfold causeOwnKind
      rw [finalize_err]
    rw [h2]
    exact h1

/-- Witness for C8 at a concrete input: an `Err` of a plain error followed by
a `Msg`; the built record's cause is the plain error, not an own-kind
record. -/
theorem c8_cause_never_own_kind_witness :
    New (fun _ => none) [Err (some (.plain "x")), Msg "m" none]
      = .erroneous (some (.mk "m" (some (.plain "x")) none "" 0 2))
  ∧ causeOwnKind (.mk "m" (some (.plain "x")) none "" 0 2) = false := by
  have hstd : ∀ u ∈ [Err (some (GoError.plain "x")), Msg "m" none], IsStdUnit u := by
    intro u hu
    rcases List.mem_cons.mp hu with h | h
    · exact Or.inr (Or.inr (Or.inl ⟨some (.plain "x"), h⟩))
    · rcases List.mem_cons.mp h with h2 | h2
      · exact Or.inl ⟨"m", none, h2⟩
      · exact absurd h2 (List.not_mem_nil u)
  have h := c8_cause_never_own_kind (fun _ => none) [Err (some (.plain "x")), Msg "m" none]
    (.mk "m" (some (.plain "x")) none "" 0 2) hstd rfl
  exact ⟨h.1, h.2.1⟩
